import Mathlib

set_option maxHeartbeats 1000000
set_option maxRecDepth 100000

/-!
Shallow embedding of the stun_codec STUN message codec (message framing,
type packing, TLV attribute framing, and the attribute value codecs of
RFC 5389 / 5766 / 5780) together with proofs about the claims of the
specification.  Byte streams are `List Nat` with every byte below 256;
machine integers are `Nat` with explicit `% 2 ^ w` where the Rust code
truncates.  Fallible operations return `Except ErrorKind`.
-/

deriving instance DecidableEq for Except

namespace StunCodec

/-- Error kinds of the bytecodec `ErrorKind` enum that the codec uses.
`Other` covers kinds no claim distinguishes. -/
inductive ErrorKind where
  | InvalidInput
  | IncompleteDecoding
  | InconsistentState
  | Other
deriving DecidableEq

/-- The `MessageClass` enum of src/message.rs. -/
inductive MessageClass where
  | Request
  | Indication
  | SuccessResponse
  | ErrorResponse
deriving DecidableEq

/-- Numeric value of a class, `self.class as u16` in `Type::as_u16`. -/
def MessageClass.toU16 : MessageClass → Nat
  | .Request => 0
  | .Indication => 1
  | .SuccessResponse => 2
  | .ErrorResponse => 3

/-- The `MessageClass::from_u8` function. -/
def MessageClass.fromU8 : Nat → Option MessageClass
  | 0 => some .Request
  | 1 => some .Indication
  | 2 => some .SuccessResponse
  | 3 => some .ErrorResponse
  | _ => none

/-- The `MAGIC_COOKIE` constant of src/constants.rs. -/
def MAGIC_COOKIE : Nat := 0x2112A442

/-- Big-endian bytes of a `u16` value (the `U16beEncoder`). -/
def u16beBytes (v : Nat) : List Nat := [v / 256 % 256, v % 256]

/-- Big-endian bytes of a `u32` value (the `U32beEncoder`). -/
def u32beBytes (v : Nat) : List Nat :=
  [v / 16777216 % 256, v / 65536 % 256, v / 256 % 256, v % 256]

/-- Big-endian read of a `u16` from the head of a byte list (the
`U16beDecoder`); callers guard the length. -/
def readU16 : List Nat → Nat
  | b0 :: b1 :: _ => b0 * 256 + b1
  | [b0] => b0 * 256
  | [] => 0

/-- Big-endian read of a `u32` from the head of a byte list (the
`U32beDecoder`); callers guard the length. -/
def readU32 : List Nat → Nat
  | b0 :: b1 :: b2 :: b3 :: _ => ((b0 * 256 + b1) * 256 + b2) * 256 + b3
  | _ => 0

/-- The `Type::as_u16` packing of src/message.rs lines 567-575, with the
Rust `u16` truncation of each shifted term made explicit (`% 65536`). -/
def typeAsU16 (cls : MessageClass) (method : Nat) : Nat :=
  (method &&& 0xF) |||
    ((cls.toU16 &&& 0b01) <<< 4) |||
    (((method &&& 0x70) <<< 5) % 65536) |||
    ((cls.toU16 &&& 0b10) <<< 7) |||
    (((method &&& 0xF80) <<< 9) % 65536)

/-- The `Type::from_u16` unpacking of src/message.rs lines 577-590.  The
`unwrap` on `MessageClass::from_u8` is modelled by the (unreachable)
`InconsistentState` branch. -/
def typeFromU16 (value : Nat) : Except ErrorKind (MessageClass × Nat) :=
  if value >>> 14 ≠ 0 then .error .InvalidInput
  else
    match MessageClass.fromU8 (((value >>> 4) &&& 0b01) ||| ((value >>> 7) &&& 0b10)) with
    | none => .error .InconsistentState
    | some cls =>
      .ok (cls, (value &&& 0xF) ||| ((value >>> 1) &&& 0x70) ||| ((value >>> 2) &&& 0xF80))

example : typeAsU16 .Request 1 = 0x0001 := by decide
example : typeAsU16 .SuccessResponse 1 = 0x0101 := by decide
example : typeFromU16 0x0101 = .ok (.SuccessResponse, 1) := by decide
example : typeAsU16 .Request 0x010 = 0x200 := by decide
example : typeFromU16 0x200 = .ok (.Request, 0x080) := by decide

/-- True for a UTF-8 continuation byte (`0x80..=0xBF`). -/
def isCont (c : Nat) : Bool := 0x80 ≤ c && c ≤ 0xBF

/-- Validity of a byte sequence as UTF-8, as checked by Rust
`str::from_utf8` inside the bytecodec `Utf8Decoder` (rejecting overlong
forms, surrogates, and code points above U+10FFFF). -/
def validUtf8 : List Nat → Bool
  | [] => true
  | b :: rest =>
    if b ≤ 0x7F then validUtf8 rest
    else if b < 0xC2 then false
    else if b ≤ 0xDF then
      match rest with
      | c1 :: r => isCont c1 && validUtf8 r
      | [] => false
    else if b = 0xE0 then
      match rest with
      | c1 :: c2 :: r => (0xA0 ≤ c1 && c1 ≤ 0xBF) && isCont c2 && validUtf8 r
      | _ => false
    else if b ≤ 0xEC then
      match rest with
      | c1 :: c2 :: r => isCont c1 && isCont c2 && validUtf8 r
      | _ => false
    else if b = 0xED then
      match rest with
      | c1 :: c2 :: r => (0x80 ≤ c1 && c1 ≤ 0x9F) && isCont c2 && validUtf8 r
      | _ => false
    else if b ≤ 0xEF then
      match rest with
      | c1 :: c2 :: r => isCont c1 && isCont c2 && validUtf8 r
      | _ => false
    else if b = 0xF0 then
      match rest with
      | c1 :: c2 :: c3 :: r => (0x90 ≤ c1 && c1 ≤ 0xBF) && isCont c2 && isCont c3 && validUtf8 r
      | _ => false
    else if b ≤ 0xF3 then
      match rest with
      | c1 :: c2 :: c3 :: r => isCont c1 && isCont c2 && isCont c3 && validUtf8 r
      | _ => false
    else if b = 0xF4 then
      match rest with
      | c1 :: c2 :: c3 :: r => (0x80 ≤ c1 && c1 ≤ 0x8F) && isCont c2 && isCont c3 && validUtf8 r
      | _ => false
    else false

/-- Number of characters of a valid UTF-8 byte sequence (Rust
`str::chars().count()`): one character per non-continuation byte. -/
def utf8CharCount (b : List Nat) : Nat := b.countP (fun c => !isCont c)

/-- The `Utf8Decoder` of bytecodec: returns the (UTF-8 valid) bytes of the
decoded `String`, which Rust stores exactly as those bytes. -/
def utf8Decode (b : List Nat) : Except ErrorKind (List Nat) :=
  if validUtf8 b then .ok b else .error .InvalidInput

/-- The `USERNAME` attribute value (rfc5389/attributes.rs); the `name`
field holds the UTF-8 bytes of the Rust `String`. -/
structure Username where
  name : List Nat
deriving DecidableEq

/-- The `Username::new` constructor: byte length below 513. -/
def Username.new (name : List Nat) : Except ErrorKind Username :=
  if name.length < 513 then .ok ⟨name⟩ else .error .InvalidInput

/-- The `UsernameDecoder`: UTF-8 decode then `Username::new`. -/
def usernameDecodeValue (b : List Nat) : Except ErrorKind Username :=
  utf8Decode b >>= Username.new

/-- The `REALM` attribute value. -/
structure Realm where
  text : List Nat
deriving DecidableEq

/-- The `Realm::new` constructor: fewer than 128 characters. -/
def Realm.new (text : List Nat) : Except ErrorKind Realm :=
  if utf8CharCount text < 128 then .ok ⟨text⟩ else .error .InvalidInput

/-- The `RealmDecoder`: UTF-8 decode then `Realm::new`. -/
def realmDecodeValue (b : List Nat) : Except ErrorKind Realm :=
  utf8Decode b >>= Realm.new

/-- The `NONCE` attribute value. -/
structure Nonce where
  value : List Nat
deriving DecidableEq

/-- The `Nonce::new` constructor: fewer than 128 characters. -/
def Nonce.new (value : List Nat) : Except ErrorKind Nonce :=
  if utf8CharCount value < 128 then .ok ⟨value⟩ else .error .InvalidInput

/-- The `NonceDecoder`: UTF-8 decode then `Nonce::new`. -/
def nonceDecodeValue (b : List Nat) : Except ErrorKind Nonce :=
  utf8Decode b >>= Nonce.new

/-- The `SOFTWARE` attribute value. -/
structure Software where
  description : List Nat
deriving DecidableEq

/-- The `Software::new` constructor: fewer than 128 characters. -/
def Software.new (description : List Nat) : Except ErrorKind Software :=
  if utf8CharCount description < 128 then .ok ⟨description⟩ else .error .InvalidInput

/-- The `SoftwareDecoder`: UTF-8 decode then `Software::new`. -/
def softwareDecodeValue (b : List Nat) : Except ErrorKind Software :=
  utf8Decode b >>= Software.new

/-- The `ERROR-CODE` attribute value: numeric code and the UTF-8 bytes of
the reason phrase. -/
structure ErrorCode where
  code : Nat
  reason : List Nat
deriving DecidableEq

/-- The `ErrorCode::new` constructor of rfc5389/attributes.rs lines
162-168: it checks only that the code lies in `300..600`. -/
def ErrorCode.new (code : Nat) (reason : List Nat) : Except ErrorKind ErrorCode :=
  if 300 ≤ code ∧ code < 600 then .ok ⟨code, reason⟩ else .error .InvalidInput

/-- The `ErrorCodeDecoder` applied to the exact value bytes: a `u32` is
read, the reason is UTF-8 decoded, then class and number are extracted
and validated as in rfc5389/attributes.rs lines 206-220. -/
def errorCodeDecodeValue (b : List Nat) : Except ErrorKind ErrorCode :=
  if b.length < 4 then .error .IncompleteDecoding
  else
    (utf8Decode (b.drop 4)).bind fun reason =>
      let value := readU32 b
      let cls := (value >>> 8) &&& 0b111
      let number := value &&& 0b11111111
      if 3 ≤ cls ∧ cls < 6 then
        if number < 100 then .ok ⟨cls * 100 + number, reason⟩
        else .error .InvalidInput
      else .error .InvalidInput

/-- The `ErrorCodeEncoder`: `(code / 100) << 8 | code % 100` as a
big-endian `u32`, followed by the reason bytes. -/
def errorCodeEncodeValue (e : ErrorCode) : List Nat :=
  u32beBytes (((e.code / 100) <<< 8) ||| (e.code % 100)) ++ e.reason

/-- The `EVEN-PORT` attribute value (rfc5766/attributes.rs). -/
structure EvenPort where
  isRequested : Bool
deriving DecidableEq

/-- The `EvenPortDecoder` applied to the exact value bytes: a single byte
whose bit 7 is the flag; any other length fails the TLV length bound. -/
def evenPortDecodeValue (b : List Nat) : Except ErrorKind EvenPort :=
  match b with
  | [x] => .ok ⟨x &&& 0b10000000 != 0⟩
  | _ => .error .InvalidInput

/-- The `REQUESTED-TRANSPORT` attribute value (rfc5766/attributes.rs). -/
structure RequestedTransport where
  protocol : Nat
deriving DecidableEq

/-- The `RequestedTransportDecoder` applied to the exact value bytes: a
big-endian `u32` whose top byte (`(item >> 24) as u8`) is the protocol. -/
def requestedTransportDecodeValue (b : List Nat) : Except ErrorKind RequestedTransport :=
  if b.length = 4 then .ok ⟨(readU32 b >>> 24) % 256⟩ else .error .InvalidInput

/-- The `RESPONSE-PORT` attribute value (rfc5780/attributes.rs). -/
structure ResponsePort where
  port : Nat
deriving DecidableEq

/-- The `ResponsePortDecoder` applied to the exact value bytes: a
big-endian `u32` whose high half (`(item >> 16) as u16`) is the port. -/
def responsePortDecodeValue (b : List Nat) : Except ErrorKind ResponsePort :=
  if b.length = 4 then .ok ⟨(readU32 b >>> 16) % 65536⟩ else .error .InvalidInput

/-- The `ResponsePortEncoder` of rfc5780/attributes.rs lines 309-319: it
always starts its `U32beEncoder` with the value 0, discarding the stored
port. -/
def responsePortEncodeValue (_ : ResponsePort) : List Nat := u32beBytes 0

/-- Socket addresses as held by the attribute values: the IP octets plus
the port (src/net.rs). -/
inductive SockAddr where
  | v4 (ip : List Nat) (port : Nat)
  | v6 (ip : List Nat) (port : Nat)
deriving DecidableEq

/-- The `SocketAddrDecoder` applied to the exact value bytes: one unused
byte, a family byte (1 = IPv4 with 4 address bytes, 2 = IPv6 with 16),
and a big-endian `u16` port. -/
def decodeSockAddr (b : List Nat) : Except ErrorKind SockAddr :=
  match b with
  | _unused :: fam :: p1 :: p2 :: rest =>
    if fam = 1 then
      if rest.length = 4 then .ok (.v4 rest (p1 * 256 + p2)) else .error .InvalidInput
    else if fam = 2 then
      if rest.length = 16 then .ok (.v6 rest (p1 * 256 + p2)) else .error .InvalidInput
    else .error .InvalidInput
  | _ => .error .IncompleteDecoding

/-- The `SocketAddrEncoder`: zero byte, family, port, address octets. -/
def encodeSockAddr : SockAddr → List Nat
  | .v4 ip port => 0 :: 1 :: (u16beBytes port ++ ip)
  | .v6 ip port => 0 :: 2 :: (u16beBytes port ++ ip)

/-- The `MAPPED-ADDRESS` attribute value (rfc5389/attributes.rs). -/
structure MappedAddress where
  address : SockAddr
deriving DecidableEq

/-- The `LosslessAttribute` enum of src/attribute.rs: a parsed known
variant or a raw unknown attribute, each with the optional captured
padding bytes. -/
inductive Lossless (α : Type) where
  | known (inner : α) (padding : Option (List Nat))
  | unknown (attrType : Nat) (value : List Nat) (padding : Option (List Nat))
deriving DecidableEq

/-- The `Message` struct of src/message.rs. -/
structure Message (α : Type) where
  cls : MessageClass
  method : Nat
  transactionId : List Nat
  attributes : List (Lossless α)
deriving DecidableEq

/-- The `BrokenMessage` struct of src/message.rs: header data plus the
error that interrupted attribute decoding. -/
structure BrokenMessage where
  method : Nat
  cls : MessageClass
  transactionId : List Nat
  error : ErrorKind
deriving DecidableEq

/-- An attribute profile: the `Attribute` trait implementation of a
closed attribute sum, as the message codec consumes it.  `decodeValue`
receives the attribute type and exactly the declared value bytes (the
`Length` combinator bound); the hooks receive the partial message of
preceding attributes. -/
structure AttrCodec (α : Type) where
  getType : α → Nat
  tryStart : Nat → Bool
  decodeValue : Nat → List Nat → Except ErrorKind α
  encodeValue : α → List Nat
  beforeEncodeHook : α → Message α → Except ErrorKind α
  afterDecodeHook : α → Message α → Except ErrorKind α

/-- Attribute type of a lossless attribute (`LosslessAttribute::get_type`). -/
def losslessType (P : AttrCodec α) : Lossless α → Nat
  | .known a _ => P.getType a
  | .unknown t _ _ => t

/-- The `before_encode` dispatch of `LosslessAttribute`: raw attributes
use the default no-op hook. -/
def losslessBeforeEncode (P : AttrCodec α) (la : Lossless α) (m : Message α) :
    Except ErrorKind (Lossless α) :=
  match la with
  | .known a pad => (P.beforeEncodeHook a m).map (fun a2 => .known a2 pad)
  | .unknown t v pad => .ok (.unknown t v pad)

/-- The `after_decode` dispatch of `LosslessAttribute`. -/
def losslessAfterDecode (P : AttrCodec α) (la : Lossless α) (m : Message α) :
    Except ErrorKind (Lossless α) :=
  match la with
  | .known a pad => (P.afterDecodeHook a m).map (fun a2 => .known a2 pad)
  | .unknown t v pad => .ok (.unknown t v pad)

/-- The `before_encode` loop of `MessageEncoder::start_encoding`: each
attribute sees the message restricted to the already-processed preceding
attributes. -/
def beforePass (P : AttrCodec α) (cls : MessageClass) (method : Nat) (tid : List Nat)
    (acc : List (Lossless α)) : List (Lossless α) → Except ErrorKind (List (Lossless α))
  | [] => .ok acc
  | la :: rest => do
    let la2 ← losslessBeforeEncode P la ⟨cls, method, tid, acc⟩
    beforePass P cls method tid (acc ++ [la2]) rest

/-- The `after_decode` loop of `MessageDecoder::finish_decoding_with_header`. -/
def afterPass (P : AttrCodec α) (cls : MessageClass) (method : Nat) (tid : List Nat)
    (acc : List (Lossless α)) : List (Lossless α) → Except ErrorKind (List (Lossless α))
  | [] => .ok acc
  | la :: rest => do
    let la2 ← losslessAfterDecode P la ⟨cls, method, tid, acc⟩
    afterPass P cls method tid (acc ++ [la2]) rest

/-- Wire padding length after a value of `len` bytes (`Padding::new`). -/
def padLen (len : Nat) : Nat := (4 - len % 4) % 4

/-- The `LosslessAttributeEncoder::start_encoding` + `encode` pipeline:
type, length (asserted below `0x10000`), value bytes, then the captured
padding or fresh zero padding. -/
def encodeLossless (P : AttrCodec α) (la : Lossless α) : Except ErrorKind (List Nat) :=
  let v := match la with
    | .known a _ => P.encodeValue a
    | .unknown _ v _ => v
  let pad := match la with
    | .known _ pad => pad
    | .unknown _ _ pad => pad
  if v.length < 65536 then
    .ok (u16beBytes (losslessType P la) ++ u16beBytes v.length ++ v ++
      pad.getD (List.replicate (padLen v.length) 0))
  else .error .InvalidInput

/-- The `MessageEncoder::start_encoding` pipeline: run the
`before_encode` pass, encode each attribute, assert the attribute
section below `0x10000` bytes, then emit type, length, magic cookie,
transaction id and the section. -/
def encodeMessage (P : AttrCodec α) (m : Message α) : Except ErrorKind (List Nat) := do
  let attrs ← beforePass P m.cls m.method m.transactionId [] m.attributes
  let bodies ← attrs.mapM (encodeLossless P)
  let body := bodies.flatten
  if body.length < 65536 then
    .ok (u16beBytes (typeAsU16 m.cls m.method) ++ u16beBytes body.length ++
      u32beBytes MAGIC_COOKIE ++ m.transactionId ++ body)
  else .error .InvalidInput

/-- The attribute-section loop (`Collect` of `LosslessAttributeDecoder`),
with an explicit fuel argument for structural recursion; the fuel is
instantiated with the byte count, which each 4-byte-or-more TLV step
strictly decreases, so the zero-fuel branch is unreachable. -/
def decodeAttrListFuel (P : AttrCodec α) : Nat → List Nat → Except ErrorKind (List (Lossless α))
  | _, [] => .ok []
  | 0, _ :: _ => .error .Other
  | fuel + 1, b0 :: bs =>
    let b := b0 :: bs
    if b.length < 4 then .error .IncompleteDecoding
    else
      let t := readU16 b
      let vlen := readU16 (b.drop 2)
      let rest := b.drop 4
      if rest.length < vlen + padLen vlen then .error .IncompleteDecoding
      else do
        let v := rest.take vlen
        let pad := (rest.drop vlen).take (padLen vlen)
        let la ←
          if P.tryStart t then (P.decodeValue t v).map (fun a => Lossless.known a (some pad))
          else .ok (Lossless.unknown t v (some pad))
        let tail ← decodeAttrListFuel P fuel (rest.drop (vlen + padLen vlen))
        .ok (la :: tail)

/-- The attribute-section decoder over exactly the declared bytes. -/
def decodeAttrList (P : AttrCodec α) (b : List Nat) : Except ErrorKind (List (Lossless α)) :=
  decodeAttrListFuel P b.length b

/-- The `MessageDecoder` pipeline over a complete byte stream: decode the
20-byte header (type unpacking, then the magic-cookie assertion), bound
the attribute section to the declared length, and decode it; an error in
the attribute section (including the stream ending before the declared
length, as in the repository's `decoder_fails_when_decoding_attributes`
test) or in the `after_decode` pass is captured as a `BrokenMessage`
success value, as in `MessageDecoder::finish_decoding`.  Bytes beyond
the declared length are an outer error of the byte-stream driver. -/
def decodeMessage (P : AttrCodec α) (b : List Nat) :
    Except ErrorKind (Except BrokenMessage (Message α)) :=
  if b.length < 20 then .error .IncompleteDecoding
  else
    match typeFromU16 (readU16 b) with
    | .error e => .error e
    | .ok (cls, method) =>
      if readU32 (b.drop 4) ≠ MAGIC_COOKIE then .error .InvalidInput
      else
        let len := readU16 (b.drop 2)
        let tid := (b.drop 8).take 12
        let rest := b.drop 20
        if len < rest.length then .error .Other
        else
          let attrsRes :=
            if rest.length < len then
              match decodeAttrList P rest with
              | .ok _ => Except.error ErrorKind.IncompleteDecoding
              | .error e => Except.error e
            else decodeAttrList P rest
          match attrsRes.bind (afterPass P cls method tid []) with
          | .error e => .ok (.error ⟨method, cls, tid, e⟩)
          | .ok attrs => .ok (.ok ⟨cls, method, tid, attrs⟩)

/-- A closed attribute sum over RFC 5389 attribute values without
transaction-scoped hooks, an instance of the `define_attribute_enums!`
profiles the message codec is used with. -/
inductive StunAttr where
  | mappedAddress (a : MappedAddress)
  | username (u : Username)
  | software (s : Software)
  | errorCode (e : ErrorCode)
  | nonce (n : Nonce)
  | realm (r : Realm)
deriving DecidableEq

/-- Codepoint of a `StunAttr` (each variant's `CODEPOINT`). -/
def StunAttr.codepoint : StunAttr → Nat
  | .mappedAddress _ => 0x0001
  | .username _ => 0x0006
  | .software _ => 0x8022
  | .errorCode _ => 0x0009
  | .nonce _ => 0x0015
  | .realm _ => 0x0014

/-- Dispatcher `try_start_decoding` over the `StunAttr` codepoints. -/
def StunAttr.tryStart (t : Nat) : Bool :=
  t = 0x0001 || t = 0x0006 || t = 0x8022 || t = 0x0009 || t = 0x0015 || t = 0x0014

/-- Tagged value decoding over the `StunAttr` codepoints. -/
def StunAttr.decodeValue (t : Nat) (v : List Nat) : Except ErrorKind StunAttr :=
  if t = 0x0001 then (decodeSockAddr v).map (fun a => .mappedAddress ⟨a⟩)
  else if t = 0x0006 then (usernameDecodeValue v).map .username
  else if t = 0x8022 then (softwareDecodeValue v).map .software
  else if t = 0x0009 then (errorCodeDecodeValue v).map .errorCode
  else if t = 0x0015 then (nonceDecodeValue v).map .nonce
  else if t = 0x0014 then (realmDecodeValue v).map .realm
  else .error .InconsistentState

/-- Value encoding by variant. -/
def StunAttr.encodeValue : StunAttr → List Nat
  | .mappedAddress a => encodeSockAddr a.address
  | .username u => u.name
  | .software s => s.description
  | .errorCode e => errorCodeEncodeValue e
  | .nonce n => n.value
  | .realm r => r.text

/-- The `StunAttr` profile; none of these attributes overrides the
default no-op `before_encode` / `after_decode` hooks. -/
def stunCodec : AttrCodec StunAttr :=
  { getType := StunAttr.codepoint
    tryStart := StunAttr.tryStart
    decodeValue := StunAttr.decodeValue
    encodeValue := StunAttr.encodeValue
    beforeEncodeHook := fun a _ => .ok a
    afterDecodeHook := fun a _ => .ok a }

/-- An attribute profile containing only `RESPONSE-PORT`, an instance of
using the message codec with the RFC 5780 attribute set. -/
def rpCodec : AttrCodec ResponsePort :=
  { getType := fun _ => 0x0027
    tryStart := fun t => t = 0x0027
    decodeValue := fun _ v => responsePortDecodeValue v
    encodeValue := responsePortEncodeValue
    beforeEncodeHook := fun a _ => .ok a
    afterDecodeHook := fun a _ => .ok a }

lemma typeFromU16_error {v : Nat} {e : ErrorKind} (h : typeFromU16 v = .error e) :
    e = .InvalidInput := by
  unfold typeFromU16 at h
  by_cases h14 : v >>> 14 ≠ 0
  · rw [if_pos h14] at h
    exact (Except.error.inj h).symm
  · rw [if_neg h14] at h
    have h1 : (v >>> 4) &&& 0b01 < 4 := lt_of_le_of_lt Nat.and_le_right (by norm_num)
    have h2 : (v >>> 7) &&& 0b10 < 4 := lt_of_le_of_lt Nat.and_le_right (by norm_num)
    have h4 : ((v >>> 4) &&& 0b01) ||| ((v >>> 7) &&& 0b10) < 4 := by
      have := Nat.or_lt_two_pow (n := 2) (by simpa using h1) (by simpa using h2)
      simpa using this
    have hall : ∀ c, c < 4 → (MessageClass.fromU8 c).isSome := by decide
    obtain ⟨mc, hmc⟩ := Option.isSome_iff_exists.mp (hall _ h4)
    rw [hmc] at h
    exact absurd h (by simp)

lemma readU16_split (v : Nat) (hv : v < 65536) : v / 256 % 256 * 256 + v % 256 = v := by
  omega

lemma decodeMessage_valid_header (P : AttrCodec α) (tword : Nat) (cls : MessageClass)
    (mth : Nat) (tid ab : List Nat) (hw : tword < 65536)
    (ht : typeFromU16 tword = .ok (cls, mth)) (htid : tid.length = 12)
    (hab : ab.length < 65536) :
    decodeMessage P
        (u16beBytes tword ++ u16beBytes ab.length ++ u32beBytes MAGIC_COOKIE ++ tid ++ ab) =
      match (decodeAttrList P ab).bind (afterPass P cls mth tid []) with
      | .error e => .ok (.error ⟨mth, cls, tid, e⟩)
      | .ok attrs => .ok (.ok ⟨cls, mth, tid, attrs⟩) := by
  have hb : u16beBytes tword ++ u16beBytes ab.length ++ u32beBytes MAGIC_COOKIE ++ tid ++ ab
      = tword / 256 % 256 :: tword % 256 :: ab.length / 256 % 256 :: ab.length % 256 ::
        33 :: 18 :: 164 :: 66 :: (tid ++ ab) := by
    simp [u16beBytes, u32beBytes, MAGIC_COOKIE]
  rw [hb]
  unfold decodeMessage
  rw [if_neg (by simp only [List.length_cons, List.length_append, htid]; omega)]
  have hr16 : readU16 (tword / 256 % 256 :: tword % 256 :: ab.length / 256 % 256 ::
      ab.length % 256 :: 33 :: 18 :: 164 :: 66 :: (tid ++ ab)) = tword := by
    simp [readU16]; omega
  rw [hr16, ht]
  simp only [List.drop_succ_cons, List.drop_zero]
  have hr32 : readU32 (33 :: 18 :: 164 :: 66 :: (tid ++ ab)) = MAGIC_COOKIE := by
    simp [readU32, MAGIC_COOKIE]
  rw [hr32]
  rw [if_neg (by simp)]
  have hrL : readU16 (ab.length / 256 % 256 :: ab.length % 256 :: 33 :: 18 :: 164 :: 66 ::
      (tid ++ ab)) = ab.length := by
    simp [readU16]; omega
  rw [hrL]
  have hdrop : List.drop 12 (tid ++ ab) = ab := List.drop_left' htid
  have htake : List.take 12 (tid ++ ab) = tid := List.take_left' htid
  rw [hdrop, htake]
  rw [if_neg (lt_irrefl _), if_neg (lt_irrefl _)]

lemma decodeAttrList_single_err (P : AttrCodec α) (t : Nat) (v pad : List Nat) (e : ErrorKind)
    (ht : t < 65536) (hv : v.length < 65536) (hp : pad.length = padLen v.length)
    (hs : P.tryStart t = true) (hd : P.decodeValue t v = .error e) :
    decodeAttrList P (u16beBytes t ++ u16beBytes v.length ++ v ++ pad) = .error e := by
  have hb : u16beBytes t ++ u16beBytes v.length ++ v ++ pad
      = t / 256 % 256 :: t % 256 :: v.length / 256 % 256 :: v.length % 256 :: (v ++ pad) := by
    simp [u16beBytes]
  rw [decodeAttrList, hb]
  have hlen : (t / 256 % 256 :: t % 256 :: v.length / 256 % 256 :: v.length % 256 ::
      (v ++ pad)).length = ((v ++ pad).length + 3) + 1 := by
    simp
  rw [hlen]
  rw [decodeAttrListFuel]
  rw [if_neg (by simp only [List.length_cons, List.length_append]; omega)]
  have hr16 : readU16 (t / 256 % 256 :: t % 256 :: v.length / 256 % 256 :: v.length % 256 ::
      (v ++ pad)) = t := by
    simp only [readU16]; omega
  rw [hr16]
  simp only [List.drop_succ_cons, List.drop_zero]
  have hrL : readU16 (v.length / 256 % 256 :: v.length % 256 :: (v ++ pad)) = v.length := by
    simp [readU16]; omega
  rw [hrL]
  rw [if_neg (by simp [hp])]
  rw [List.take_left, hs, if_pos rfl, hd]
  rfl

lemma usernameDecode_long (v : List Nat) (hv : 513 ≤ v.length) :
    usernameDecodeValue v = .error .InvalidInput := by
  unfold usernameDecodeValue utf8Decode
  by_cases h : validUtf8 v
  · rw [if_pos h]
    show Username.new v = _
    unfold Username.new
    rw [if_neg (by omega)]
  · rw [if_neg h]
    rfl

lemma realmDecode_long (v : List Nat) (hu : validUtf8 v = true) (hv : 128 ≤ utf8CharCount v) :
    realmDecodeValue v = .error .InvalidInput := by
  unfold realmDecodeValue utf8Decode
  rw [if_pos hu]
  show Realm.new v = _
  unfold Realm.new
  rw [if_neg (by omega)]

lemma nonceDecode_long (v : List Nat) (hu : validUtf8 v = true) (hv : 128 ≤ utf8CharCount v) :
    nonceDecodeValue v = .error .InvalidInput := by
  unfold nonceDecodeValue utf8Decode
  rw [if_pos hu]
  show Nonce.new v = _
  unfold Nonce.new
  rw [if_neg (by omega)]

lemma softwareDecode_long (v : List Nat) (hu : validUtf8 v = true)
    (hv : 128 ≤ utf8CharCount v) :
    softwareDecodeValue v = .error .InvalidInput := by
  unfold softwareDecodeValue utf8Decode
  rw [if_pos hu]
  show Software.new v = _
  unfold Software.new
  rw [if_neg (by omega)]

lemma and_mask7 (x : Nat) : x &&& 0b111 = x % 8 := by
  have h := Nat.and_pow_two_sub_one_eq_mod x 3
  norm_num at h
  exact h

lemma and_mask255 (x : Nat) : x &&& 0b11111111 = x % 256 := by
  have h := Nat.and_pow_two_sub_one_eq_mod x 8
  norm_num at h
  exact h

lemma and_mask128 (x : Nat) : x &&& 0b10000000 = x / 128 % 2 * 128 := by
  have h := Nat.and_two_pow x 7
  rw [Nat.testBit_to_div_mod] at h
  norm_num at h ⊢
  rw [h]
  by_cases hx : x / 128 % 2 = 1
  · simp [hx]
  · simp [hx]
    omega

/-- C2: the claim states that `Type::from_u16` inverts `Type::as_u16` for
every class and every method below `0x1000`.  The code violates it: with
the shift amounts `<< 5` and `<< 9` of `Type::as_u16`, method `0x010`
packs to `0x200`, which unpacks to method `0x080`, so the pair is not an
involution (this theorem evaluates the code at that failing input). -/
theorem type_packing_not_involutive_at_method16 :
    typeAsU16 .Request 0x010 = 0x200 ∧
    typeFromU16 0x200 = .ok (.Request, 0x080) ∧
    typeFromU16 (typeAsU16 .Request 0x010) ≠ .ok (.Request, 0x010) := by decide

/-- C1: the claim states that decoding the encoding of any well-formed
message returns an equal message.  The code violates it through the
`Type::as_u16` packing slip: the attribute-free BINDING-class message
with method `0x010` re-decodes with method `0x080` (this theorem
evaluates the codec at that failing input). -/
theorem roundtrip_fails_at_method16 :
    (encodeMessage stunCodec ⟨.Request, 0x010, List.replicate 12 3, []⟩).bind
        (decodeMessage stunCodec) =
      .ok (.ok ⟨.Request, 0x080, List.replicate 12 3, []⟩) ∧
    (Message.mk .Request 0x080 (List.replicate 12 3) ([] : List (Lossless StunAttr))) ≠
      ⟨.Request, 0x010, List.replicate 12 3, []⟩ := by decide

/-- C3: the claim states that re-encoding a decoded stream of unknown
comprehension-optional attributes reproduces the stream byte-for-byte.
The code violates it through the same `Type::as_u16` slip: the stream
with message-type word `0x0020` and one unknown attribute `0x8001`
decodes fine (the attribute and its padding are preserved), but the
re-encoded header carries type word `0x0200` (this theorem evaluates the
codec at that failing input). -/
theorem unknown_preservation_fails_at_typeword_0x20 :
    decodeMessage stunCodec
        ([0x00, 0x20, 0x00, 0x04, 0x21, 0x12, 0xA4, 0x42] ++ List.replicate 12 3 ++
          [0x80, 0x01, 0x00, 0x00]) =
      .ok (.ok ⟨.Request, 0x010, List.replicate 12 3, [.unknown 0x8001 [] (some [])]⟩) ∧
    encodeMessage stunCodec
        ⟨.Request, 0x010, List.replicate 12 3, [.unknown 0x8001 [] (some [])]⟩ =
      .ok ([0x02, 0x00, 0x00, 0x04, 0x21, 0x12, 0xA4, 0x42] ++ List.replicate 12 3 ++
        [0x80, 0x01, 0x00, 0x00]) ∧
    ([0x02, 0x00, 0x00, 0x04, 0x21, 0x12, 0xA4, 0x42] ++ List.replicate 12 3 ++
        [0x80, 0x01, 0x00, 0x00] : List Nat) ≠
      [0x00, 0x20, 0x00, 0x04, 0x21, 0x12, 0xA4, 0x42] ++ List.replicate 12 3 ++
        [0x80, 0x01, 0x00, 0x00] := by decide

/-- C4: if the attribute section of a stream with a valid 20-byte header
fails to decode, the outer decode still succeeds and returns a
`BrokenMessage` carrying the header's method, class, transaction id and
the underlying error. -/
theorem attribute_error_yields_broken_message (P : AttrCodec α) (tword : Nat)
    (cls : MessageClass) (mth : Nat) (tid ab : List Nat) (e : ErrorKind)
    (hw : tword < 65536) (ht : typeFromU16 tword = .ok (cls, mth)) (htid : tid.length = 12)
    (hab : ab.length < 65536) (he : decodeAttrList P ab = .error e) :
    decodeMessage P
        (u16beBytes tword ++ u16beBytes ab.length ++ u32beBytes MAGIC_COOKIE ++ tid ++ ab) =
      .ok (.error ⟨mth, cls, tid, e⟩) := by
  rw [decodeMessage_valid_header P tword cls mth tid ab hw ht htid hab, he]
  rfl

/-- Witness for the BrokenMessage theorem at the byte stream of the
repository's `decoder_fails_when_decoding_attributes` test (a truncated
MAPPED-ADDRESS attribute). -/
theorem attribute_error_yields_broken_message_witness :
    decodeMessage stunCodec
        (u16beBytes 1 ++ u16beBytes ([0, 1, 0, 8, 0, 1, 0, 80, 127, 0, 1] : List Nat).length ++
          u32beBytes MAGIC_COOKIE ++ List.replicate 12 3 ++
          [0, 1, 0, 8, 0, 1, 0, 80, 127, 0, 1]) =
      .ok (.error ⟨1, .Request, List.replicate 12 3, .IncompleteDecoding⟩) :=
  attribute_error_yields_broken_message stunCodec 1 .Request 1 (List.replicate 12 3)
    [0, 1, 0, 8, 0, 1, 0, 80, 127, 0, 1] .IncompleteDecoding (by decide) (by decide)
    (by decide) (by decide) (by decide)

/-- C5: decoding any stream of at least 20 bytes whose 32-bit word at
offset 4 is not the magic cookie fails with an outer `InvalidInput`
error, producing neither a `Message` nor a `BrokenMessage`. -/
theorem bad_magic_cookie_fails_invalid_input (P : AttrCodec α) (b : List Nat)
    (h20 : 20 ≤ b.length) (hc : readU32 (b.drop 4) ≠ MAGIC_COOKIE) :
    decodeMessage P b = .error .InvalidInput := by
  unfold decodeMessage
  rw [if_neg (by omega)]
  cases htf : typeFromU16 (readU16 b) with
  | error e =>
    have he := typeFromU16_error htf
    subst he
    rfl
  | ok p =>
    obtain ⟨cls, mth⟩ := p
    show (if readU32 (b.drop 4) ≠ MAGIC_COOKIE then Except.error ErrorKind.InvalidInput else _)
      = Except.error ErrorKind.InvalidInput
    rw [if_pos hc]

/-- Witness for the magic-cookie theorem: a 20-byte stream whose cookie
word is `0x2112A443`. -/
theorem bad_magic_cookie_fails_invalid_input_witness :
    decodeMessage stunCodec
        ([0, 1, 0, 0, 0x21, 0x12, 0xA4, 0x43] ++ List.replicate 12 0) =
      .error .InvalidInput :=
  bad_magic_cookie_fails_invalid_input stunCodec _ (by decide) (by decide)

/-- C6: the RESPONSE-PORT encoder emits the 32-bit value 0 (four zero
bytes) whatever port is stored, while the decoder returns the high 16
bits of the 32-bit value; consequently a message holding RESPONSE-PORT 5
re-decodes with port 0. -/
theorem response_port_encodes_zero_decodes_high16 :
    (∀ p : Nat, responsePortEncodeValue ⟨p⟩ = [0, 0, 0, 0]) ∧
    (∀ b0 b1 b2 b3 : Nat, b0 < 256 → b1 < 256 → b2 < 256 → b3 < 256 →
      responsePortDecodeValue [b0, b1, b2, b3] = .ok ⟨b0 * 256 + b1⟩) ∧
    (encodeMessage rpCodec ⟨.Request, 1, List.replicate 12 3, [.known ⟨5⟩ none]⟩).bind
        (decodeMessage rpCodec) =
      .ok (.ok ⟨.Request, 1, List.replicate 12 3, [.known ⟨0⟩ (some [])]⟩) := by
  refine ⟨fun p => rfl, fun b0 b1 b2 b3 h0 h1 h2 h3 => ?_, by decide⟩
  unfold responsePortDecodeValue
  have hlen4 : ([b0, b1, b2, b3] : List Nat).length = 4 := rfl
  rw [if_pos hlen4]
  have : (readU32 [b0, b1, b2, b3] >>> 16) % 65536 = b0 * 256 + b1 := by
    rw [Nat.shiftRight_eq_div_pow]
    simp only [readU32]
    norm_num
    omega
  rw [this]

/-- Witness for the RESPONSE-PORT theorem at port 5 and value bytes
`[1, 2, 3, 4]`. -/
theorem response_port_encodes_zero_decodes_high16_witness :
    responsePortEncodeValue ⟨5⟩ = [0, 0, 0, 0] ∧
    responsePortDecodeValue [1, 2, 3, 4] = .ok ⟨258⟩ :=
  ⟨response_port_encodes_zero_decodes_high16.1 5,
    response_port_encodes_zero_decodes_high16.2.1 1 2 3 4 (by decide) (by decide) (by decide)
      (by decide)⟩

/-- C7 counterexample: the claim states that `ErrorCode::new` rejects
reason phrases of 128 or more characters; in the code it accepts a
128-character reason phrase (128 ASCII letters) together with code 300. -/
theorem error_code_new_accepts_long_reason :
    utf8CharCount (List.replicate 128 97) = 128 ∧
    ErrorCode.new 300 (List.replicate 128 97) = .ok ⟨300, List.replicate 128 97⟩ := by decide

/-- C7 amended: `ErrorCode::new` validates only the numeric code, which
must lie in `300..600`; the reason phrase is accepted unchanged at any
length. -/
theorem error_code_new_validates_only_code : ∀ (code : Nat) (reason : List Nat),
    (ErrorCode.new code reason = .ok ⟨code, reason⟩ ↔ 300 ≤ code ∧ code < 600) ∧
    (¬(300 ≤ code ∧ code < 600) → ErrorCode.new code reason = .error .InvalidInput) := by
  intro code reason
  refine ⟨⟨fun h => ?_, fun h => ?_⟩, fun h => ?_⟩
  · by_contra hc
    unfold ErrorCode.new at h
    rw [if_neg hc] at h
    exact absurd h (by simp)
  · unfold ErrorCode.new
    rw [if_pos h]
  · unfold ErrorCode.new
    rw [if_neg h]

/-- Witness for the amended ERROR-CODE constructor theorem at codes 300
and 700. -/
theorem error_code_new_validates_only_code_witness :
    ErrorCode.new 300 [] = .ok ⟨300, []⟩ ∧
    ErrorCode.new 700 [] = .error .InvalidInput :=
  ⟨(error_code_new_validates_only_code 300 []).1.mpr (by decide),
    (error_code_new_validates_only_code 700 []).2 (by decide)⟩

/-- C8: the BINDING request with transaction id of twelve `0x03` bytes
and a single SOFTWARE attribute with value "foo" encodes to exactly the
32 bytes of the specification (declared length 8, one zero padding byte
after the 3-byte value). -/
theorem binding_software_foo_encoding :
    encodeMessage stunCodec
        ⟨.Request, 0x001, List.replicate 12 3, [.known (.software ⟨[0x66, 0x6F, 0x6F]⟩) none]⟩ =
      .ok [0x00, 0x01, 0x00, 0x08, 0x21, 0x12, 0xA4, 0x42,
        0x03, 0x03, 0x03, 0x03, 0x03, 0x03, 0x03, 0x03, 0x03, 0x03, 0x03, 0x03,
        0x80, 0x22, 0x00, 0x03, 0x66, 0x6F, 0x6F, 0x00] := by decide

/-- C9: the value decoders enforce the constructor constraints: a
USERNAME value of 513 bytes or more fails with `InvalidInput`, as does a
REALM, NONCE, or SOFTWARE value of 128 or more characters; a message
carrying such a USERNAME attribute therefore decodes to a
`BrokenMessage` rather than a `Message`. -/
theorem decoders_enforce_constructor_validation :
    (∀ v : List Nat, 513 ≤ v.length → usernameDecodeValue v = .error .InvalidInput) ∧
    (∀ v : List Nat, validUtf8 v = true → 128 ≤ utf8CharCount v →
      realmDecodeValue v = .error .InvalidInput) ∧
    (∀ v : List Nat, validUtf8 v = true → 128 ≤ utf8CharCount v →
      nonceDecodeValue v = .error .InvalidInput) ∧
    (∀ v : List Nat, validUtf8 v = true → 128 ≤ utf8CharCount v →
      softwareDecodeValue v = .error .InvalidInput) ∧
    (∀ tid v pad : List Nat, tid.length = 12 → 513 ≤ v.length →
      v.length + pad.length < 65532 → pad.length = padLen v.length →
      decodeMessage stunCodec
          (u16beBytes 1 ++
            u16beBytes (u16beBytes 6 ++ u16beBytes v.length ++ v ++ pad).length ++
            u32beBytes MAGIC_COOKIE ++ tid ++
            (u16beBytes 6 ++ u16beBytes v.length ++ v ++ pad)) =
        .ok (.error ⟨1, .Request, tid, .InvalidInput⟩)) := by
  refine ⟨usernameDecode_long, realmDecode_long, nonceDecode_long, softwareDecode_long,
    fun tid v pad htid hv hlen hp => ?_⟩
  have hab : (u16beBytes 6 ++ u16beBytes v.length ++ v ++ pad).length < 65536 := by
    simp [u16beBytes]
    omega
  have hd : stunCodec.decodeValue 6 v = .error .InvalidInput := by
    show StunAttr.decodeValue 6 v = _
    unfold StunAttr.decodeValue
    rw [if_neg (by decide), if_pos rfl, usernameDecode_long v hv]
    rfl
  rw [decodeMessage_valid_header stunCodec 1 .Request 1 tid _ (by decide) (by decide) htid hab,
    decodeAttrList_single_err stunCodec 6 v pad .InvalidInput (by decide) (by omega) hp
      (by decide) hd]
  rfl

/-- Witness for the decoder-validation theorem: a 513-byte username, a
128-character realm, nonce and software value, and the full message
carrying the too-long username. -/
theorem decoders_enforce_constructor_validation_witness :
    usernameDecodeValue (List.replicate 513 97) = .error .InvalidInput ∧
    realmDecodeValue (List.replicate 128 97) = .error .InvalidInput ∧
    nonceDecodeValue (List.replicate 128 97) = .error .InvalidInput ∧
    softwareDecodeValue (List.replicate 128 97) = .error .InvalidInput ∧
    decodeMessage stunCodec
        (u16beBytes 1 ++
          u16beBytes (u16beBytes 6 ++ u16beBytes (List.replicate 513 97).length ++
            List.replicate 513 97 ++ List.replicate 3 0).length ++
          u32beBytes MAGIC_COOKIE ++ List.replicate 12 3 ++
          (u16beBytes 6 ++ u16beBytes (List.replicate 513 97).length ++
            List.replicate 513 97 ++ List.replicate 3 0)) =
      .ok (.error ⟨1, .Request, List.replicate 12 3, .InvalidInput⟩) :=
  ⟨decoders_enforce_constructor_validation.1 _ (by decide),
    decoders_enforce_constructor_validation.2.1 _ (by decide) (by decide),
    decoders_enforce_constructor_validation.2.2.1 _ (by decide) (by decide),
    decoders_enforce_constructor_validation.2.2.2.1 _ (by decide) (by decide),
    decoders_enforce_constructor_validation.2.2.2.2 (List.replicate 12 3)
      (List.replicate 513 97) (List.replicate 3 0) (by decide) (by decide) (by decide)
      (by decide)⟩

/-- C10: reserved wire bits are ignored on decode: EVEN-PORT depends
only on bit 7 of its byte and always succeeds, REQUESTED-TRANSPORT only
on the top byte of its word, RESPONSE-PORT only on the high 16 bits, and
ERROR-CODE only on the low 11 bits of its 32-bit word so that two values
differing in the reserved top 21 bits decode identically. -/
theorem reserved_bits_ignored_on_decode :
    (∀ x y : Nat, x < 256 → y < 256 → x / 128 = y / 128 →
      (∃ a, evenPortDecodeValue [x] = .ok a) ∧
      evenPortDecodeValue [x] = evenPortDecodeValue [y]) ∧
    (∀ b0 b1 b2 b3 : Nat, b0 < 256 → b1 < 256 → b2 < 256 → b3 < 256 →
      requestedTransportDecodeValue [b0, b1, b2, b3] = .ok ⟨b0⟩) ∧
    (∀ b0 b1 b2 b3 : Nat, b0 < 256 → b1 < 256 → b2 < 256 → b3 < 256 →
      responsePortDecodeValue [b0, b1, b2, b3] = .ok ⟨b0 * 256 + b1⟩) ∧
    (∀ v1 v2 : Nat, v1 < 4294967296 → v2 < 4294967296 → v1 % 2048 = v2 % 2048 →
      ∀ reason : List Nat,
        errorCodeDecodeValue (u32beBytes v1 ++ reason) =
          errorCodeDecodeValue (u32beBytes v2 ++ reason)) := by
  refine ⟨fun x y hx hy hxy => ⟨⟨_, rfl⟩, ?_⟩, fun b0 b1 b2 b3 h0 h1 h2 h3 => ?_,
    fun b0 b1 b2 b3 h0 h1 h2 h3 => ?_, fun v1 v2 h1 h2 hm reason => ?_⟩
  · simp only [evenPortDecodeValue]
    rw [and_mask128, and_mask128, hxy]
  · unfold requestedTransportDecodeValue
    have hlen4 : ([b0, b1, b2, b3] : List Nat).length = 4 := rfl
    rw [if_pos hlen4]
    have : (readU32 [b0, b1, b2, b3] >>> 24) % 256 = b0 := by
      rw [Nat.shiftRight_eq_div_pow]
      simp only [readU32]
      norm_num
      omega
    rw [this]
  · unfold responsePortDecodeValue
    have hlen4 : ([b0, b1, b2, b3] : List Nat).length = 4 := rfl
    rw [if_pos hlen4]
    have : (readU32 [b0, b1, b2, b3] >>> 16) % 65536 = b0 * 256 + b1 := by
      rw [Nat.shiftRight_eq_div_pow]
      simp only [readU32]
      norm_num
      omega
    rw [this]
  · unfold errorCodeDecodeValue
    have hl1 : ¬((u32beBytes v1 ++ reason).length < 4) := by simp [u32beBytes]
    have hl2 : ¬((u32beBytes v2 ++ reason).length < 4) := by simp [u32beBytes]
    rw [if_neg hl1, if_neg hl2]
    have hd1 : (u32beBytes v1 ++ reason).drop 4 = reason := by simp [u32beBytes]
    have hd2 : (u32beBytes v2 ++ reason).drop 4 = reason := by simp [u32beBytes]
    rw [hd1, hd2]
    have hr1 : readU32 (u32beBytes v1 ++ reason) = v1 := by
      simp only [u32beBytes, List.cons_append, List.nil_append, readU32]
      omega
    have hr2 : readU32 (u32beBytes v2 ++ reason) = v2 := by
      simp only [u32beBytes, List.cons_append, List.nil_append, readU32]
      omega
    rw [hr1, hr2]
    dsimp only
    have hcls : (v1 >>> 8) &&& 0b111 = (v2 >>> 8) &&& 0b111 := by
      rw [Nat.shiftRight_eq_div_pow, Nat.shiftRight_eq_div_pow, and_mask7, and_mask7]
      norm_num
      omega
    have hnum : v1 &&& 0b11111111 = v2 &&& 0b11111111 := by
      rw [and_mask255, and_mask255]
      omega
    rw [hcls, hnum]

/-- Witness for the reserved-bits theorem: EVEN-PORT bytes 255 and 128,
REQUESTED-TRANSPORT with junk in the low 24 bits, RESPONSE-PORT with
junk in the low 16 bits, and ERROR-CODE words differing only in the top
21 bits. -/
theorem reserved_bits_ignored_on_decode_witness :
    ((∃ a, evenPortDecodeValue [255] = .ok a) ∧
      evenPortDecodeValue [255] = evenPortDecodeValue [128]) ∧
    requestedTransportDecodeValue [17, 255, 255, 255] = .ok ⟨17⟩ ∧
    responsePortDecodeValue [1, 2, 255, 255] = .ok ⟨258⟩ ∧
    errorCodeDecodeValue (u32beBytes 0xFFFFF545 ++ [97]) =
      errorCodeDecodeValue (u32beBytes 0x00000545 ++ [97]) :=
  ⟨reserved_bits_ignored_on_decode.1 255 128 (by decide) (by decide) (by decide),
    reserved_bits_ignored_on_decode.2.1 17 255 255 255 (by decide) (by decide) (by decide)
      (by decide),
    reserved_bits_ignored_on_decode.2.2.1 1 2 255 255 (by decide) (by decide) (by decide)
      (by decide),
    reserved_bits_ignored_on_decode.2.2.2 0xFFFFF545 0x00000545 (by decide) (by decide)
      (by decide) [97]⟩

end StunCodec
